import Mathlib

/-!
Verification of the CSV-import core of `OriginBookImportCSV3.py`
(`OriginDataProcessor.read_data_file` and `_detect_delimiter`).

The file is modelled as a list of raw lines (`List String`).  Python string
primitives (`strip`, `split`, `startswith`, `in`, `count`) are embedded as
structurally recursive functions over the underlying character list, so all
definitions evaluate by `decide` / `rfl`.
-/

namespace QuickOriginCSV

/-- Python whitespace characters recognised by `str.strip()` (ASCII subset). -/
def isPySpace (c : Char) : Bool :=
  c == ' ' || c == '\t' || c == '\n' || c == '\r' || c == '\x0b' || c == '\x0c'

/-- Python `s.strip()`. -/
def pyStrip (s : String) : String :=
  String.mk (((s.data.dropWhile isPySpace).reverse.dropWhile isPySpace).reverse)

/-- Auxiliary: is the first list a leading segment of the second? -/
def isLeadSeg : List Char → List Char → Bool
  | [], _ => true
  | _ :: _, [] => false
  | p :: ps, c :: cs => p == c && isLeadSeg ps cs

/-- Python `s.startswith(t)`. -/
def pyStartsWith (s t : String) : Bool :=
  isLeadSeg t.data s.data

/-- Auxiliary for substring containment: does `sub` occur in the list? -/
def hasSubL (sub : List Char) : List Char → Bool
  | [] => isLeadSeg sub []
  | c :: t => isLeadSeg sub (c :: t) || hasSubL sub t

/-- Python `sub in s` (substring containment). -/
def pyContains (s sub : String) : Bool :=
  hasSubL sub.data s.data

/-- Splitting accumulator: Python `s.split(sep)` for a one-character separator. -/
def pySplitAux (sep : Char) : List Char → List Char → List (List Char)
  | acc, [] => [acc.reverse]
  | acc, c :: rest =>
    if c == sep then acc.reverse :: pySplitAux sep [] rest
    else pySplitAux sep (c :: acc) rest

/-- Python `s.split(sep)` for a one-character separator. -/
def pySplit (s : String) (sep : Char) : List String :=
  (pySplitAux sep [] s.data).map String.mk

/-- The candidate delimiters tried by `_detect_delimiter`
(`possible_delimiters = [',', '\t', ';', '|']`, source line 431). -/
def delimCandidates : List Char := [',', '\t', ';', '|']

/-- Embedding of `OriginDataProcessor._detect_delimiter` (source lines 426-442): count each
candidate in the line, keep the candidates with positive count (in candidate
order, as Python dict insertion order), and take the first one achieving the
maximum (`max(..., key=...)` keeps the earliest maximal entry).  Empty or
whitespace-only lines return `','` immediately. -/
def detectDelimiter (line : String) : Char :=
  if line = "" ∨ pyStrip line = "" then ','
  else
    match (delimCandidates.map (fun d => (d, line.data.count d))).filter
        (fun p => decide (0 < p.2)) with
    | [] => ','
    | p :: ps => (ps.foldl (fun best q => if best.2 < q.2 then q else best) p).1

/-- Position of a candidate in the priority list `delimCandidates`. -/
def delimIdx (c : Char) : Nat :=
  delimCandidates.findIdx (fun x => x == c)

/-- Field clean-up shared by the declaration lines and the data rows:
`h.strip()` for each raw field, then discard fields that are empty after the
strip (the `if h.strip()` guard of the list comprehensions, source lines
214, 225, 253). -/
def filtFields (fields : List String) : List String :=
  (fields.map pyStrip).filter (fun s => decide (s ≠ ""))

/-- Predicate for the Phase-A names line (source line 203):
stripped line starts with `AnalysisSetup` and contains `Datum.Name`. -/
def nameLinePred (l : String) : Bool :=
  pyStartsWith l "AnalysisSetup" && pyContains l "Datum.Name"

/-- Index of the first Phase-A names line. -/
def nameLineIdx? (lines : List String) : Option Nat :=
  lines.findIdx? (fun l => nameLinePred (pyStrip l))

/-- Predicate for the Phase-A unit line (source line 220):
stripped line starts with `AnalysisSetup` and contains `Datum.Unit`. -/
def isUnitLine (l : String) : Bool :=
  pyStartsWith l "AnalysisSetup" && pyContains l "Datum.Unit"

/-- Lookahead scan for the unit line (source line 218):
`for j in range(i + 1, min(i + 10, len(lines)))`, returning the first `j`
whose stripped line satisfies `isUnitLine`. -/
def unitLineIdx? (lines : List String) (i : Nat) : Option Nat :=
  (List.range' (i + 1) (min (i + 10) lines.length - (i + 1))).find?
    (fun j => isUnitLine (pyStrip (lines.getD j "")))

/-- Phase A (source lines 197-233): the preliminary name→unit association
list, built by zipping the cleaned fields 3.. of the names line with the
cleaned fields 3.. of the unit line (same delimiter, detected on the names
line).  Empty when any step fails. -/
def phaseA (lines : List String) : List (String × String) :=
  match nameLineIdx? lines with
  | none => []
  | some i =>
    let l := pyStrip (lines.getD i "")
    let d := detectDelimiter l
    let parts := pySplit l d
    if 2 < parts.length then
      match unitLineIdx? lines i with
      | none => []
      | some j =>
        let ul := pyStrip (lines.getD j "")
        let uparts := pySplit ul d
        if 2 < uparts.length then
          (filtFields (parts.drop 2)).zip (filtFields (uparts.drop 2))
        else []
    else []

/-- The preliminary name→unit mapping built from the names line at index `i`
and the unit line at index `j` (source lines 206-231): delimiter detected on
the names line, both lines split on it, fields 3.. cleaned and zipped;
empty when either line has at most two fields. -/
def unitMapFrom (lines : List String) (i j : Nat) : List (String × String) :=
  let l := pyStrip (lines.getD i "")
  let d := detectDelimiter l
  let parts := pySplit l d
  if 2 < parts.length then
    let ul := pyStrip (lines.getD j "")
    let uparts := pySplit ul d
    if 2 < uparts.length then
      (filtFields (parts.drop 2)).zip (filtFields (uparts.drop 2))
    else []
  else []

/-- Python dict lookup on an association list where later bindings overwrite
earlier ones (as successive `unit_mapping[col] = unit` assignments do). -/
def dictGet? (m : List (String × String)) (k : String) : Option String :=
  (m.reverse.find? (fun p => p.1 == k)).map Prod.snd

/-- Index of the `DataName` line (source lines 240-257): first line whose
stripped text starts with `DataName`. -/
def dataNameIdx? (lines : List String) : Option Nat :=
  lines.findIdx? (fun l => pyStartsWith (pyStrip l) "DataName")

/-- The authoritative column order extracted from the line at index `i`:
detect the delimiter on the stripped line, split, drop the leading marker
field, strip and discard blank fields (source lines 249-253). -/
def headersAt (lines : List String) (i : Nat) : List String :=
  let l := pyStrip (lines.getD i "")
  filtFields ((pySplit l (detectDelimiter l)).drop 1)

/-- The `AuthoritativeColumnOrder` of the file (`data_headers`), empty when no
`DataName` line exists. -/
def authHeadersOf (lines : List String) : List String :=
  match dataNameIdx? lines with
  | none => []
  | some i => headersAt lines i

/-- The data-section delimiter: the one detected on the `DataName` line
(source line 249). -/
def dataDelimOf (lines : List String) : Char :=
  match dataNameIdx? lines with
  | none => ','
  | some i => detectDelimiter (pyStrip (lines.getD i ""))

/-- Reconciled column→unit map (source lines 263-266): for each name of
`AuthoritativeColumnOrder` in order, keep the Phase-A unit when one exists. -/
def unitsOf (lines : List String) : List (String × String) :=
  (authHeadersOf lines).foldl
    (fun acc col =>
      match dictGet? (phaseA lines) col with
      | some u => acc ++ [(col, u)]
      | none => acc)
    []

/-- Selection planning (source lines 274-301): keep requested names that
occur in `data_headers` (caller order preserved by the `for col in
need_columns` loop); fall back to all columns when the request is absent,
empty (Python falsiness), or entirely unmatched.  Returns the selected
names and their source indices (`data_headers.index(col)`). -/
def selection (dataHeaders : List String) (need : Option (List String)) :
    List String × List Nat :=
  match need with
  | some needCols =>
    if needCols.isEmpty then (dataHeaders, List.range dataHeaders.length)
    else
      let valid := needCols.filter (fun c => decide (c ∈ dataHeaders))
      if valid.isEmpty then (dataHeaders, List.range dataHeaders.length)
      else (valid, valid.map (fun c => dataHeaders.findIdx (fun h => h == c)))
  | none => (dataHeaders, List.range dataHeaders.length)

/-- The requested names reported as missing (source lines 278-285). -/
def missingColumnsOf (dataHeaders : List String) (needCols : List String) :
    List String :=
  needCols.filter (fun c => decide (c ∉ dataHeaders))

/-- The `selection` applied to the file's authoritative order. -/
def selectionOf (lines : List String) (need : Option (List String)) :
    List String × List Nat :=
  selection (authHeadersOf lines) need

/-- Value clean-up for one data field (source lines 339-345): strip, then if
the result contains a space together with an `E` or `e` (mis-tokenised
scientific notation), delete every space. -/
def cleanValue (v : String) : String :=
  let c := pyStrip v
  if c.data.contains ' ' && (c.data.contains 'E' || c.data.contains 'e') then
    String.mk (c.data.filter (fun ch => ch != ' '))
  else c

/-- The fixed non-data marker set skipped in Phase C (source line 317). -/
def skipMarkers : List String :=
  ["SetupTitle", "PrimitiveTest", "TestParameter", "AnalysisSetup",
   "Dimension1", "Dimension2", "#"]

/-- Classification and padding of one candidate line of Phase C (source
lines 310-359, up to but excluding the column projection): blank lines,
marker-prefixed lines, non-`DataValue` lines and splits with fewer than two
fields are dropped; otherwise the fields after the marker are cleaned and
right-padded with `""` up to the declared column count (never truncated). -/
def rowCandidate (delim : Char) (nCols : Nat) (rawLine : String) :
    Option (List String) :=
  let l := pyStrip rawLine
  if l = "" then none
  else if skipMarkers.any (fun m => pyStartsWith l m) then none
  else if ¬ pyStartsWith l "DataValue" then none
  else
    let parts := pySplit l delim
    if parts.length < 2 then none
    else
      let cleaned := (parts.drop 1).map cleanValue
      if cleaned.length < nCols then
        some (cleaned ++ List.replicate (nCols - cleaned.length) "")
      else some cleaned

/-- All padded rows of a line block. -/
def collectPadded (delim : Char) (nCols : Nat) (blk : List String) :
    List (List String) :=
  blk.filterMap (rowCandidate delim nCols)

/-- The intermediate padded representation of the file: the padded rows of
every line strictly after the `DataName` line. -/
def paddedRowsOf (lines : List String) : List (List String) :=
  match dataNameIdx? lines with
  | none => []
  | some i =>
    collectPadded (dataDelimOf lines) (authHeadersOf lines).length
      (lines.drop (i + 1))

/-- Column projection of one padded row (source lines 354-359): indices past
the end of the value list yield `""`. -/
def selectRow (idxs : List Nat) (vals : List String) : List String :=
  idxs.map (fun i => vals.getD i "")

/-- The collected data rows (source lines 361-365): project each padded row
through the selection indices and keep it only when some projected value is
non-blank after a strip. -/
def selectedRowsOf (lines : List String) (need : Option (List String)) :
    List (List String) :=
  (paddedRowsOf lines).filterMap (fun padRow =>
    let s := selectRow (selectionOf lines need).2 padRow
    if s.any (fun v => decide (pyStrip v ≠ "")) then some s else none)

/-- A parsed numeric literal `mant * 10 ^ exp10`, the value model for
`pd.to_numeric`. -/
structure SciNum where
  mant : Int
  exp10 : Int
deriving DecidableEq

/-- Numeric value of a digit run. -/
def natOfDigits (ds : List Char) : Nat :=
  ds.foldl (fun a c => a * 10 + (c.toNat - 48)) 0

/-- Exponent tail of a numeric literal: `e`/`E`, optional sign, digit run. -/
def parseExpTail (cs : List Char) : Option Int :=
  match cs with
  | [] => some 0
  | c :: r =>
    if c = 'e' ∨ c = 'E' then
      let esgn : Int := match r with | '-' :: _ => -1 | _ => 1
      let r1 := match r with | '+' :: t => t | '-' :: t => t | t => t
      let eds := r1.takeWhile Char.isDigit
      if eds.isEmpty ∨ ¬ (r1.dropWhile Char.isDigit).isEmpty then none
      else some (esgn * (natOfDigits eds : Int))
    else none

/-- Per-value model of `pd.to_numeric(..., errors='coerce')` on a string
cell: standard decimal / scientific-notation literals parse to a value,
everything else (including the empty string) coerces to the missing marker
`none`. -/
def pyToNumeric (s : String) : Option SciNum :=
  let cs := s.data
  let sgn : Int := match cs with | '-' :: _ => -1 | _ => 1
  let cs1 := match cs with | '+' :: t => t | '-' :: t => t | t => t
  let intPart := cs1.takeWhile Char.isDigit
  let rest := cs1.dropWhile Char.isDigit
  let fracPart := match rest with
    | '.' :: r => r.takeWhile Char.isDigit
    | _ => []
  let rest2 := match rest with
    | '.' :: r => r.dropWhile Char.isDigit
    | r => r
  if intPart.isEmpty ∧ fracPart.isEmpty then none
  else
    match parseExpTail rest2 with
    | none => none
    | some e =>
      some ⟨sgn * (natOfDigits (intPart ++ fracPart) : Int),
            e - (fracPart.length : Int)⟩

/-- A column after the type-conversion step: numeric with explicit missing
entries, or kept as text. -/
inductive TypedColumn
  | numeric (vals : List (Option SciNum))
  | text (vals : List String)
deriving DecidableEq

/-- Column conversion as the code performs it (source lines 388-399):
`pd.to_numeric(df[col], errors='coerce')` never raises on string input, so
every column becomes numeric and each unparseable or empty cell becomes the
missing marker. -/
def convertColumn (vals : List String) : TypedColumn :=
  TypedColumn.numeric (vals.map pyToNumeric)

/-- Fatal outcomes of `read_data_file` (spec §7); `FileUnreadable` concerns
the I/O layer outside this embedding. -/
inductive ParseError
  | MissingColumnDeclaration
  | EmptyResult
deriving DecidableEq

/-- The finalized table returned on success. -/
structure ParsedFile where
  headers : List String
  colIndices : List Nat
  rows : List (List String)
  typedCols : List TypedColumn
  units : List (String × String)
deriving DecidableEq

/-- Embedding of `OriginDataProcessor.read_data_file` (source lines 179-424) on an
in-memory line list: fail with `MissingColumnDeclaration` when no `DataName`
line exists, fail with `EmptyResult` when no usable data row was collected,
and otherwise return the selected headers, source indices, collected rows,
per-column converted values and the reconciled unit map. -/
def read_data_file (lines : List String) (need : Option (List String)) :
    Except ParseError ParsedFile :=
  match dataNameIdx? lines with
  | none => Except.error ParseError.MissingColumnDeclaration
  | some _ =>
    if selectedRowsOf lines need = [] then Except.error ParseError.EmptyResult
    else
      Except.ok
        { headers := (selectionOf lines need).1
          colIndices := (selectionOf lines need).2
          rows := selectedRowsOf lines need
          typedCols := (List.range (selectionOf lines need).1.length).map
            (fun j => convertColumn
              ((selectedRowsOf lines need).map (fun r => r.getD j "")))
          units := unitsOf lines }

/-- Selected column names of a parse outcome (empty on failure). -/
def headersOf : Except ParseError ParsedFile → List String
  | Except.ok p => p.headers
  | Except.error _ => []

/-- Unit map of a parse outcome (empty on failure). -/
def unitsOfResult : Except ParseError ParsedFile → List (String × String)
  | Except.ok p => p.units
  | Except.error _ => []



/-- A file whose unit line sits exactly 10 lines after the names line. -/
def fileUnitAtTen : List String :=
  ["AnalysisSetup,Datum.Name,A", "x", "x", "x", "x", "x", "x", "x", "x", "x",
   "AnalysisSetup,Datum.Unit,V"]

/-! ## Helper lemmas -/

/-- Applying `find?` over `range'` returns the first index in the window satisfying
the predicate. -/
theorem find?_range'_some {p : Nat → Bool} {s n j : Nat}
    (h : (List.range' s n).find? p = some j) :
    s ≤ j ∧ j < s + n ∧ p j = true ∧ ∀ k, s ≤ k → k < j → p k = false := by
  induction n generalizing s with
  | zero => simp [List.range'] at h
  | succ n ih =>
    rw [List.range'_succ] at h
    by_cases hp : p s = true
    · rw [List.find?_cons_of_pos _ hp] at h
      obtain rfl : s = j := by simpa using h
      exact ⟨Nat.le_refl _, by omega, hp, fun k hk1 hk2 => absurd hk1 (by omega)⟩
    · rw [List.find?_cons_of_neg _ hp] at h
      obtain ⟨h1, h2, h3, h4⟩ := ih h
      refine ⟨by omega, by omega, h3, fun k hk1 hk2 => ?_⟩
      rcases Nat.eq_or_lt_of_le hk1 with heq | hlt
      · subst heq; exact Bool.not_eq_true _ |>.mp hp
      · exact h4 k hlt hk2

/-- Whenever some index in the window satisfies the predicate, `find?` over
`range'` succeeds, returning an index no later than it. -/
theorem find?_range'_found (p : Nat → Bool) (s n j : Nat)
    (h1 : s ≤ j) (h2 : j < s + n) (hp : p j = true) :
    ∃ j0, (List.range' s n).find? p = some j0 ∧ j0 ≤ j := by
  cases hf : (List.range' s n).find? p with
  | none =>
    exfalso
    rw [List.find?_eq_none] at hf
    exact hf j (List.mem_range'_1.mpr ⟨h1, h2⟩) hp
  | some j0 =>
    obtain ⟨g1, g2, g3, g4⟩ := find?_range'_some hf
    refine ⟨j0, rfl, ?_⟩
    by_contra hlt
    have hfalse : p j = false := g4 j h1 (by omega)
    rw [hp] at hfalse
    cases hfalse

/-- Applying `find?` over `range'` fails when the predicate fails on the whole
window. -/
theorem find?_range'_none {p : Nat → Bool} {s n : Nat}
    (h : ∀ k, s ≤ k → k < s + n → p k = false) :
    (List.range' s n).find? p = none := by
  rw [List.find?_eq_none]
  intro x hx
  rw [List.mem_range'_1] at hx
  simp [h x hx.1 hx.2]

/-- Blank and non-blank field counts split the length of a string list. -/
theorem countP_strip_split (l : List String) :
    l.countP (fun u => decide (pyStrip u ≠ "")) +
      l.countP (fun u => decide (pyStrip u = "")) = l.length := by
  induction l with
  | nil => rfl
  | cons a t ih =>
    by_cases h : pyStrip a = ""
    · have e1 : (decide (pyStrip a ≠ "")) = false := by simp [h]
      have e2 : (decide (pyStrip a = "")) = true := by simp [h]
      simp only [List.countP_cons, e1, e2, if_true, if_false,
        List.length_cons, Bool.false_eq_true]
      omega
    · have e1 : (decide (pyStrip a ≠ "")) = true := by simp [h]
      have e2 : (decide (pyStrip a = "")) = false := by simp [h]
      simp only [List.countP_cons, e1, e2, if_true, if_false,
        List.length_cons, Bool.false_eq_true]
      omega

/-- Pointwise description of `zip` through `getElem?`. -/
theorem zip_getElem?_eq {α β : Type} {A : List α} {B : List β} {i : Nat}
    {a : α} {b : β} (ha : A[i]? = some a) (hb : B[i]? = some b) :
    (A.zip B)[i]? = some (a, b) := by
  induction A generalizing B i with
  | nil => simp at ha
  | cons x xs ih =>
    cases B with
    | nil => simp at hb
    | cons y ys =>
      cases i with
      | zero =>
        simp only [List.getElem?_cons_zero, Option.some.injEq] at ha hb
        simp [ha, hb]
      | succ n =>
        simp only [List.getElem?_cons_succ] at ha hb
        rw [List.zip_cons_cons]
        simp only [List.getElem?_cons_succ]
        exact ih ha hb

/-- Every padded row produced by `rowCandidate` has at least the declared
number of columns (short rows are padded up, long rows are kept whole). -/
theorem rowCandidate_length {delim : Char} {nCols : Nat} {rawLine : String}
    {r : List String} (h : rowCandidate delim nCols rawLine = some r) :
    nCols ≤ r.length := by
  simp only [rowCandidate] at h
  split at h
  · cases h
  split at h
  · cases h
  split at h
  · cases h
  split at h
  · cases h
  split at h
  · rename_i hlt
    obtain rfl : _ = r := Option.some.inj h
    simp only [List.length_append, List.length_replicate]
    omega
  · rename_i hnlt
    obtain rfl : _ = r := Option.some.inj h
    omega

/-- Keys accumulated by the `unitsOf` fold come from the accumulator or the
scanned name list. -/
theorem unitsOf_fold_mem {m acc : List (String × String)} {D : List String}
    {k v : String}
    (h : (k, v) ∈ D.foldl
      (fun acc col =>
        match dictGet? m col with
        | some u => acc ++ [(col, u)]
        | none => acc) acc) :
    (k, v) ∈ acc ∨ k ∈ D := by
  induction D generalizing acc with
  | nil => exact Or.inl h
  | cons c t ih =>
    simp only [List.foldl_cons] at h
    rcases ih h with hacc | ht
    · cases hd : dictGet? m c with
      | some u =>
        rw [hd] at hacc
        rcases List.mem_append.mp hacc with h1 | h2
        · exact Or.inl h1
        · simp only [List.mem_singleton, Prod.mk.injEq] at h2
          exact Or.inr (by simp [h2.1])
      | none =>
        rw [hd] at hacc
        exact Or.inl hacc
    · exact Or.inr (List.mem_cons_of_mem _ ht)

/-! ## Claims -/

/-- Claim C3 (confirmed): for every input file containing no line whose
trimmed text begins with `DataName`, the parse fails with
`MissingColumnDeclaration` and produces no table. -/
theorem C3_missing_declaration (lines : List String)
    (need : Option (List String))
    (h : ∀ l ∈ lines, pyStartsWith (pyStrip l) "DataName" = false) :
    read_data_file lines need =
      Except.error ParseError.MissingColumnDeclaration := by
  have hidx : dataNameIdx? lines = none := by
    unfold dataNameIdx?
    rw [List.findIdx?_eq_none_iff]
    exact h
  unfold read_data_file
  rw [hidx]

/-- Witness for C3: a file of two plain lines has no `DataName` line and
parsing fails with `MissingColumnDeclaration`. -/
theorem C3_missing_declaration_witness :
    read_data_file ["hello", "world,1,2"] none =
      Except.error ParseError.MissingColumnDeclaration :=
  C3_missing_declaration ["hello", "world,1,2"] none (by decide)

/-- Claim C7 (confirmed): when a `DataName` line is found but zero data rows
are collected, the parse fails with `EmptyResult` and returns no table. -/
theorem C7_empty_result (lines : List String) (need : Option (List String))
    (i : Nat) (hi : dataNameIdx? lines = some i)
    (hr : selectedRowsOf lines need = []) :
    read_data_file lines need = Except.error ParseError.EmptyResult := by
  unfold read_data_file
  rw [hi, if_pos hr]

/-- Witness for C7: a file whose only line is the `DataName` declaration
yields zero data rows and the `EmptyResult` failure. -/
theorem C7_empty_result_witness :
    read_data_file ["DataName,A", "# comment"] none =
      Except.error ParseError.EmptyResult :=
  C7_empty_result ["DataName,A", "# comment"] none 0 (by decide) (by decide)

/-- Claim C8 (corrected): every row of the intermediate padded
representation has at least `|AuthoritativeColumnOrder|` values (padding
fills short rows; long rows are never truncated, so equality can fail). -/
theorem C8_padded_width (lines : List String) (row : List String)
    (h : row ∈ paddedRowsOf lines) :
    (authHeadersOf lines).length ≤ row.length := by
  unfold paddedRowsOf at h
  split at h
  · simp at h
  · simp only [collectPadded, List.mem_filterMap] at h
    obtain ⟨l, _, hr⟩ := h
    exact rowCandidate_length hr

/-- Witness for C8: on a concrete file the padded representation contains
the row `["1", "2"]`, whose width is at least the declared column count. -/
theorem C8_padded_width_witness :
    ["1", "2"] ∈ paddedRowsOf ["DataName,A", "DataValue,1,2"] ∧
    (authHeadersOf ["DataName,A", "DataValue,1,2"]).length ≤
      (["1", "2"] : List String).length :=
  ⟨by decide, C8_padded_width ["DataName,A", "DataValue,1,2"] ["1", "2"]
    (by decide)⟩

/-- Counterexample for C8 as stated: with one declared column and the data
row `DataValue,1,2`, the padded representation holds a row of two values,
so its width does not equal `|AuthoritativeColumnOrder| = 1`. -/
theorem C8_padded_width_cex :
    paddedRowsOf ["DataName,A", "DataValue,1,2"] = [["1", "2"]] ∧
    (authHeadersOf ["DataName,A", "DataValue,1,2"]).length = 1 ∧
    (["1", "2"] : List String).length ≠ 1 := by
  decide

/-- Claim C9 (confirmed): every key of the unit map returned by the parse is
a member of `AuthoritativeColumnOrder`. -/
theorem C9_units_subset (lines : List String) (need : Option (List String))
    (k v : String)
    (h : (k, v) ∈ unitsOfResult (read_data_file lines need)) :
    k ∈ authHeadersOf lines := by
  have hu : (k, v) ∈ unitsOf lines := by
    unfold read_data_file at h
    split at h
    · simp [unitsOfResult] at h
    · split at h
      · simp [unitsOfResult] at h
      · simpa [unitsOfResult] using h
  rcases unitsOf_fold_mem (by simpa [unitsOf] using hu) with h1 | h2
  · simp at h1
  · exact h2

/-- Witness for C9: a concrete parse returns the unit entry `(A, V)` and
`A` is a member of the authoritative order. -/
theorem C9_units_subset_witness :
    ("A", "V") ∈ unitsOfResult (read_data_file
      ["AnalysisSetup,Datum.Name,A", "AnalysisSetup,Datum.Unit,V",
       "DataName,A", "DataValue,1"] none) ∧
    "A" ∈ authHeadersOf
      ["AnalysisSetup,Datum.Name,A", "AnalysisSetup,Datum.Unit,V",
       "DataName,A", "DataValue,1"] :=
  ⟨by decide, C9_units_subset
    ["AnalysisSetup,Datum.Name,A", "AnalysisSetup,Datum.Unit,V",
     "DataName,A", "DataValue,1"] none "A" "V" (by decide)⟩

/-- Claim C6 (confirmed): exactly the requested entries that literally match
a name in `AuthoritativeColumnOrder` are kept, the missing ones are the
reported remainder, and the fallback to the full order happens exactly when
zero entries match. -/
theorem C6_partial_match (D R : List String) :
    (R.filter (fun c => decide (c ∈ D)) ≠ [] →
      (selection D (some R)).1 = R.filter (fun c => decide (c ∈ D))) ∧
    (R.filter (fun c => decide (c ∈ D)) = [] →
      (selection D (some R)).1 = D) ∧
    (∀ c, c ∈ missingColumnsOf D R ↔ c ∈ R ∧ c ∉ D) := by
  refine ⟨?_, ?_, ?_⟩
  · intro hv
    have hR : R ≠ [] := by
      intro h
      subst h
      simp at hv
    simp [selection, hR, hv]
  · intro hv
    by_cases hR : R = []
    · subst hR
      simp [selection]
    · simp [selection, hR, hv]
  · intro c
    simp [missingColumnsOf, List.mem_filter]

/-- Witness for C6 (spec Scenario 3): requesting `[Pressure, Humidity]`
against order `[Temp, Pressure]` selects exactly `[Pressure]` and reports
`Humidity` as missing. -/
theorem C6_partial_match_witness :
    (selection ["Temp", "Pressure"] (some ["Pressure", "Humidity"])).1 =
      ["Pressure"] ∧
    missingColumnsOf ["Temp", "Pressure"] ["Pressure", "Humidity"] =
      ["Humidity"] :=
  ⟨((C6_partial_match ["Temp", "Pressure"] ["Pressure", "Humidity"]).1
      (by decide)).trans (by decide),
   by decide⟩

/-- Claim C1 (corrected): when at least one requested name matches, the
final table's columns are the matched names in the CALLER's order (the
filtered request), not in `AuthoritativeColumnOrder`'s order; in particular
a request that is a permutation of the full order yields the caller's
ordering back. -/
theorem C1_caller_order (lines R : List String)
    (hr : selectedRowsOf lines (some R) ≠ [])
    (hv : R.filter (fun c => decide (c ∈ authHeadersOf lines)) ≠ []) :
    headersOf (read_data_file lines (some R)) =
      R.filter (fun c => decide (c ∈ authHeadersOf lines)) ∧
    (R.Perm (authHeadersOf lines) →
      headersOf (read_data_file lines (some R)) = R) := by
  obtain ⟨i, hi⟩ : ∃ i, dataNameIdx? lines = some i := by
    cases h : dataNameIdx? lines with
    | none =>
      exfalso
      apply hr
      simp [selectedRowsOf, paddedRowsOf, h]
    | some i => exact ⟨i, rfl⟩
  have hread : headersOf (read_data_file lines (some R)) =
      (selectionOf lines (some R)).1 := by
    unfold read_data_file
    rw [hi, if_neg hr]
    rfl
  have hsel : (selectionOf lines (some R)).1 =
      R.filter (fun c => decide (c ∈ authHeadersOf lines)) := by
    have hR : R ≠ [] := by
      intro h
      subst h
      simp at hv
    simp [selectionOf, selection, hR, hv]
  refine ⟨hread.trans hsel, fun hperm => ?_⟩
  rw [hread, hsel]
  exact List.filter_eq_self.mpr (fun a ha => by simpa using hperm.subset ha)

/-- Witness for C1: requesting `[Pressure, Temp]` against the order
`[Temp, Pressure]` keeps the caller's ordering. -/
theorem C1_caller_order_witness :
    headersOf (read_data_file
        ["DataName,Temp,Pressure", "DataValue,25.0,101.3"]
        (some ["Pressure", "Temp"])) =
      ["Pressure", "Temp"].filter (fun c => decide (c ∈ authHeadersOf
        ["DataName,Temp,Pressure", "DataValue,25.0,101.3"])) ∧
    ((["Pressure", "Temp"] : List String).Perm (authHeadersOf
        ["DataName,Temp,Pressure", "DataValue,25.0,101.3"]) →
      headersOf (read_data_file
          ["DataName,Temp,Pressure", "DataValue,25.0,101.3"]
          (some ["Pressure", "Temp"])) = ["Pressure", "Temp"]) :=
  C1_caller_order ["DataName,Temp,Pressure", "DataValue,25.0,101.3"]
    ["Pressure", "Temp"] (by decide) (by decide)

/-- Counterexample for C1 as stated: the request `[Pressure, Temp]` is a
permutation of the full order `[Temp, Pressure]`, yet the final columns are
`[Pressure, Temp]` — the caller's order, not the authoritative order. -/
theorem C1_caller_order_cex :
    headersOf (read_data_file
        ["DataName,Temp,Pressure", "DataValue,25.0,101.3"]
        (some ["Pressure", "Temp"])) = ["Pressure", "Temp"] ∧
    authHeadersOf ["DataName,Temp,Pressure", "DataValue,25.0,101.3"] =
      ["Temp", "Pressure"] ∧
    (["Pressure", "Temp"] : List String) ≠ ["Temp", "Pressure"] := by
  decide

/-- Claim C5 (corrected): the lookahead examines only the 9 lines after the
names line (indices `i+1 .. i+9`, truncated at end of file).  Whenever a
qualifying unit line lies in that window, the scan finds one — the first
qualifying line, no later than the given one — and the preliminary mapping
is built from the found line; when the window has none, the unit scan
yields nothing, the preliminary mapping is empty, and parsing continues (no
unit-related error exists). -/
theorem C5_lookahead (lines : List String) (i : Nat)
    (hi : nameLineIdx? lines = some i) :
    (∀ j, i + 1 ≤ j → j ≤ i + 9 → j < lines.length →
        isUnitLine (pyStrip (lines.getD j "")) = true →
      ∃ j0, unitLineIdx? lines i = some j0 ∧
        i + 1 ≤ j0 ∧ j0 ≤ j ∧
        isUnitLine (pyStrip (lines.getD j0 "")) = true ∧
        (∀ k, i + 1 ≤ k → k < j0 →
          isUnitLine (pyStrip (lines.getD k "")) = false) ∧
        phaseA lines = unitMapFrom lines i j0) ∧
    ((∀ j, i + 1 ≤ j → j ≤ i + 9 → j < lines.length →
        isUnitLine (pyStrip (lines.getD j "")) = false) →
      unitLineIdx? lines i = none ∧ phaseA lines = []) := by
  constructor
  · intro j hj1 hj2 hj3 hj
    obtain ⟨j0, hfound, hle⟩ :=
      find?_range'_found (fun k => isUnitLine (pyStrip (lines.getD k "")))
        (i + 1) (min (i + 10) lines.length - (i + 1)) j hj1 (by omega) hj
    have hfound' : unitLineIdx? lines i = some j0 := hfound
    obtain ⟨g1, g2, g3, g4⟩ := find?_range'_some hfound
    refine ⟨j0, hfound', g1, hle, g3, g4, ?_⟩
    simp [phaseA, unitMapFrom, hi, hfound']
  · intro hall
    have hnone : unitLineIdx? lines i = none := by
      apply find?_range'_none
      intro k hk1 hk2
      exact hall k hk1 (by omega) (by omega)
    refine ⟨hnone, ?_⟩
    simp [phaseA, hi, hnone]

/-- Witness for C5: with the names line at index 0 and a qualifying unit
line at index 2 (within the window), the scan finds index 2 and the
preliminary mapping `[(A, V)]` is built from it. -/
theorem C5_lookahead_witness :
    unitLineIdx? ["AnalysisSetup,Datum.Name,A", "x",
      "AnalysisSetup,Datum.Unit,V"] 0 = some 2 ∧
    phaseA ["AnalysisSetup,Datum.Name,A", "x",
      "AnalysisSetup,Datum.Unit,V"] = [("A", "V")] := by
  obtain ⟨j0, hfound, -, -, -, -, hmap⟩ :=
    (C5_lookahead ["AnalysisSetup,Datum.Name,A", "x",
      "AnalysisSetup,Datum.Unit,V"] 0 (by decide)).1 2
      (by decide) (by decide) (by decide) (by decide)
  have hval : unitLineIdx? ["AnalysisSetup,Datum.Name,A", "x",
      "AnalysisSetup,Datum.Unit,V"] 0 = some 2 := by decide
  obtain rfl : j0 = 2 := Option.some.inj (hfound.symm.trans hval)
  refine ⟨hfound, ?_⟩
  rw [hmap]
  decide

/-- Counterexample for C5 as stated: a qualifying unit line lying exactly 10
lines after the names line (index 10 after index 0) is NOT found by the
lookahead, and the preliminary mapping stays empty. -/
theorem C5_lookahead_cex :
    nameLineIdx? fileUnitAtTen = some 0 ∧
    isUnitLine (pyStrip (fileUnitAtTen.getD 10 "")) = true ∧
    unitLineIdx? fileUnitAtTen 0 = none ∧
    phaseA fileUnitAtTen = [] := by
  decide

/-- The map `filtFields` distributes over appending. -/
theorem filtFields_append (a b : List String) :
    filtFields (a ++ b) = filtFields a ++ filtFields b := by
  simp [filtFields, List.filter_append]

/-- The length of `filtFields` is the count of non-blank fields. -/
theorem length_filtFields (l : List String) :
    (filtFields l).length = l.countP (fun u => decide (pyStrip u ≠ "")) := by
  unfold filtFields
  rw [← List.countP_eq_length_filter, List.countP_map]
  rfl

/-- Claim C10 (confirmed): blank fields are discarded before the positional
zip, so a non-blank unit at raw position `k` preceded by at least one blank
unit field is paired with the name at the strictly earlier position
`m = k - (number of blanks before k)`, not with the name at position `k`. -/
theorem C10_shifted_zip (names units : List String) (k : Nat)
    (hk : k < units.length)
    (hnames : ∀ x ∈ names, pyStrip x ≠ "")
    (hu : pyStrip (units.get ⟨k, hk⟩) ≠ "")
    (he : 0 < (units.take k).countP (fun u => decide (pyStrip u = "")))
    (hm : (units.take k).countP (fun u => decide (pyStrip u ≠ "")) <
      names.length) :
    ((filtFields names).zip (filtFields units))[
        ((units.take k).countP (fun u => decide (pyStrip u ≠ "")))]? =
      some (pyStrip (names.get ⟨(units.take k).countP
          (fun u => decide (pyStrip u ≠ "")), hm⟩),
        pyStrip (units.get ⟨k, hk⟩)) ∧
    (units.take k).countP (fun u => decide (pyStrip u ≠ "")) < k := by
  have hsplit := countP_strip_split (units.take k)
  have hlen : (units.take k).length = k := by
    rw [List.length_take]
    omega
  have hmk : (units.take k).countP (fun u => decide (pyStrip u ≠ "")) < k :=
    by omega
  have hnamesF : filtFields names = names.map pyStrip := by
    unfold filtFields
    apply List.filter_eq_self.mpr
    intro a ha
    obtain ⟨x, hx, rfl⟩ := List.mem_map.mp ha
    simpa using hnames x hx
  have hna : (filtFields names)[
      ((units.take k).countP (fun u => decide (pyStrip u ≠ "")))]? =
      some (pyStrip (names.get ⟨(units.take k).countP
        (fun u => decide (pyStrip u ≠ "")), hm⟩)) := by
    rw [hnamesF, List.getElem?_map, List.getElem?_eq_getElem hm]
    simp [List.get_eq_getElem]
  have hlenf : (filtFields (units.take k)).length =
      (units.take k).countP (fun u => decide (pyStrip u ≠ "")) :=
    length_filtFields (units.take k)
  have hub : (filtFields units)[
      ((units.take k).countP (fun u => decide (pyStrip u ≠ "")))]? =
      some (pyStrip (units.get ⟨k, hk⟩)) := by
    have hfu : filtFields units =
        filtFields (units.take k) ++ filtFields (units.drop k) := by
      rw [← filtFields_append, List.take_append_drop]
    rw [hfu,
      List.getElem?_append_right (Nat.le_of_eq hlenf), hlenf,
      Nat.sub_self, List.drop_eq_getElem_cons hk]
    unfold filtFields
    rw [List.map_cons, List.filter_cons_of_pos (by simpa using hu)]
    exact List.getElem?_cons_zero
  exact ⟨zip_getElem?_eq hna hub, hmk⟩

/-- Witness for C10: names `[A, B, C]` and raw units `[u, "", w]` — the
unit `w` at raw position 2 pairs with `B` at position 1. -/
theorem C10_shifted_zip_witness :
    ((filtFields ["A", "B", "C"]).zip (filtFields ["u", "", "w"]))[1]? =
      some ("B", "w") ∧ 1 < 2 := by
  have h := C10_shifted_zip ["A", "B", "C"] ["u", "", "w"] 2 (by decide)
    (by decide) (by decide) (by decide) (by decide)
  exact h

/-- Position of `','` in the priority list. -/
@[simp] theorem delimIdx_comma : delimIdx ',' = 0 := by rfl

/-- Position of tab in the priority list. -/
@[simp] theorem delimIdx_tab : delimIdx '\t' = 1 := by rfl

/-- Position of `';'` in the priority list. -/
@[simp] theorem delimIdx_semi : delimIdx ';' = 2 := by rfl

/-- Position of `'|'` in the priority list. -/
@[simp] theorem delimIdx_pipe : delimIdx '|' = 3 := by rfl

set_option maxHeartbeats 2000000 in
/-- Claim C4 (corrected): for every line whose trimmed text is non-empty,
the detector returns a candidate achieving the maximal occurrence count,
with ties broken by the fixed priority order (it is the first maximal), and
`','` when no candidate occurs; but a line that trims to empty (such as a
tabs-only line) returns `','` regardless of the counts. -/
theorem C4_first_max (line : String) :
    (pyStrip line = "" → detectDelimiter line = ',') ∧
    (pyStrip line ≠ "" →
      detectDelimiter line ∈ delimCandidates ∧
      (∀ d ∈ delimCandidates,
        line.data.count d ≤ line.data.count (detectDelimiter line)) ∧
      ((∀ d ∈ delimCandidates, line.data.count d = 0) →
        detectDelimiter line = ',') ∧
      (∀ d ∈ delimCandidates,
        line.data.count (detectDelimiter line) ≤ line.data.count d →
        delimIdx (detectDelimiter line) ≤ delimIdx d)) := by
  constructor
  · intro h
    unfold detectDelimiter
    rw [if_pos (Or.inr h)]
  · intro h
    have hne : ¬ (line = "" ∨ pyStrip line = "") := by
      rintro (rfl | hh)
      · exact h rfl
      · exact h hh
    unfold detectDelimiter
    rw [if_neg hne]
    rcases Nat.eq_zero_or_pos (line.data.count ',') with ha | ha <;>
      rcases Nat.eq_zero_or_pos (line.data.count '\t') with hb | hb <;>
      rcases Nat.eq_zero_or_pos (line.data.count ';') with hc | hc <;>
      rcases Nat.eq_zero_or_pos (line.data.count '|') with hd | hd <;>
      simp_all [delimCandidates, List.filter_cons, List.foldl_cons,
        List.foldl_nil, -List.count_pos_iff, -List.one_le_count_iff] <;>
      (try split_ifs) <;>
      (try simp_all [-List.count_pos_iff, -List.one_le_count_iff]) <;>
      (try omega)

/-- Witness for C4: a whitespace-only line yields `','`, and on `a;b,c;d`
the returned delimiter is a candidate whose count dominates all others. -/
theorem C4_first_max_witness :
    detectDelimiter "  \t " = ',' ∧
    detectDelimiter "a;b,c;d" ∈ delimCandidates ∧
    (∀ d ∈ delimCandidates,
      ("a;b,c;d" : String).data.count d ≤
        ("a;b,c;d" : String).data.count (detectDelimiter "a;b,c;d")) :=
  ⟨(C4_first_max "  \t ").1 (by decide),
   ((C4_first_max "a;b,c;d").2 (by decide)).1,
   ((C4_first_max "a;b,c;d").2 (by decide)).2.1⟩

/-- Counterexample for C4 as stated: on the tab-only line the unique
candidate with the highest count is the tab, yet the detector returns
`','`. -/
theorem C4_first_max_cex :
    detectDelimiter "\t" = ',' ∧
    ("\t" : String).data.count '\t' = 1 ∧
    ("\t" : String).data.count ',' = 0 ∧
    ("\t" : String).data.count ';' = 0 ∧
    ("\t" : String).data.count '|' = 0 ∧
    ',' ≠ '\t' := by
  decide

end QuickOriginCSV
